import Mathlib

/-!
Shallow embedding of `fadge/core.py` (class `GRRT`): session construction,
horizon-geometry derivation, the `set_*` initial-condition builders, and the
`geode` integration entry point.  Floating-point scalars are modelled as real
numbers; the IEEE NaN produced by `sqrt` of a negative argument is modelled by
`Option ℝ` with `none` playing the role of NaN (the code only ever tests that
value with `np.isnan`).  External collaborators of the core (the metric, the
constraint solvers `Nullify`/`Normalize`, the ray generators `cam`/`sphorbit`,
and the `Geode` integrator) are abstract parameters or spec-modelled records.
-/

namespace Fadge

/-- A 4-position or 4-velocity in Kerr-Schild Cartesian components
`(t, x1, x2, x3)`; the code indexes these as `x[0] .. x[3]`. -/
structure Vec4 where
  t : ℝ
  x : ℝ
  y : ℝ
  z : ℝ

/-- An initial-condition pair `(position, velocity)`, the payload of
`np.array([x, v])` staged in `self._ic`. -/
abbrev IC := Vec4 × Vec4

/-- The Kerr-Schild radial coordinate, embedding the closure `KSr` of
`GRRT.__init__` (which captures `aa = aspin*aspin`):
`zz = x3²`, `kk = 0.5*(x1²+x2²+zz-aa)`, `r = sqrt(sqrt(kk²+aa*zz)+kk)`. -/
noncomputable def KSr (aa : ℝ) (v : Vec4) : ℝ :=
  let zz := v.z * v.z
  let kk := 0.5 * (v.x * v.x + v.y * v.y + zz - aa)
  let rr := Real.sqrt (kk * kk + aa * zz) + kk
  Real.sqrt rr

/-- The oblate distance from the ring singularity, embedding the closure `KSd`
of `GRRT.__init__` (which captures `aspin`):
`dR = sqrt(x1²+x2²) - |aspin|`, result `sqrt(dR² + x3²)`. -/
noncomputable def KSd (aspin : ℝ) (v : Vec4) : ℝ :=
  let dR := Real.sqrt (v.x * v.x + v.y * v.y) - |aspin|
  Real.sqrt (dR * dR + v.z * v.z)

/-- IEEE-style square root: `np.sqrt` returns NaN (modelled `none`) on a
negative argument instead of raising. -/
noncomputable def fsqrt (r : ℝ) : Option ℝ :=
  if r < 0 then none else some (Real.sqrt r)

/-- The value `1.0 + np.sqrt(1 - aa - qq)` computed in `GRRT.__init__`;
`none` when the square root is NaN (naked-singularity parameters). -/
noncomputable def rehFormula (a q : ℝ) : Option ℝ :=
  (fsqrt (1 - a * a - q * q)).map (fun s => 1 + s)

/-- The affine-parameter argument `L`: the code distinguishes a scalar from a
sequence by `try: len(L)`. -/
inductive LArg where
  | scalar (v : ℝ)
  | seq (vs : List ℝ)

/-- The floating-point precision tag (`dtype`). -/
inductive DT where
  | f32
  | f64

/-- A staged initial-condition payload: a single `(position, velocity)` pair
(`set_particle`, `set_photon`, `set_sphorbit`) or a pixel grid batch
(`set_pixels`). -/
inductive ICBatch where
  | single (p : IC)
  | grid (n : ℕ) (f : Fin n → IC)

/-- Right-biased merge of one optional entry: the Python dict update
`{**a, **b}` keeps `b`'s value when the key is present in `b`. -/
def opm {α : Type} (a b : Option α) : Option α :=
  match b with
  | some v => some v
  | none => a

/-- The keyword-argument dictionary `self.kwargs` (and composed call kwargs);
one optional field per key the code reads. -/
structure Kwargs where
  L : Option LArg
  h : Option ℝ
  fhupper : Option ℝ
  fhlower : Option ℝ
  hupper : Option (ℝ → IC → ℝ)
  hlower : Option (ℝ → IC → ℝ)
  eps : Option ℝ
  filter : Option (ℝ → IC → Prop)
  dtype : Option DT

/-- The empty kwargs dictionary. -/
def mtKw : Kwargs := ⟨none, none, none, none, none, none, none, none, none⟩

/-- Python dict merge `{**a, **b}`: `b`'s entries override `a`'s, key by key. -/
def Kwargs.merge (a b : Kwargs) : Kwargs :=
  ⟨opm a.L b.L, opm a.h b.h, opm a.fhupper b.fhupper, opm a.fhlower b.fhlower,
   opm a.hupper b.hupper, opm a.hlower b.hlower, opm a.eps b.eps,
   opm a.filter b.filter, opm a.dtype b.dtype⟩

/-- The dict literal `{'L':100, 'h':1}` merged (lowest priority) by
`set_particle`, `set_photon` and `set_sphorbit`. -/
def LhKw : Kwargs :=
  ⟨some (LArg.scalar 100), some 1, none, none, none, none, none, none, none⟩

/-- The upper/lower step-bound policy installed into the integrator: either a
user-supplied function, the default `lambda l, s: KSr(s[0])*fhupper + 1`
(capturing `aa` and `fhupper`), or the constant `fhlower` function. -/
inductive HPolicy where
  | user (f : ℝ → IC → ℝ)
  | scaledKSr (aa fh : ℝ)
  | const (c : ℝ)

/-- The continuation-filter policy installed into the integrator: a
user-supplied function, the distance-based default
`lambda l, s: KSd(s[0]) >= eps` (capturing `aspin` and `eps`), or the
radius-based default `lambda l, s: KSr(s[0]) >= reh + eps`
(capturing `aa`, `reh` and `eps`). -/
inductive FPolicy where
  | user (f : ℝ → IC → Prop)
  | distance (aspin eps : ℝ)
  | radius (aa reh eps : ℝ)

/-- What each continuation-filter policy computes on a trajectory element
`s = (position, velocity)` at affine parameter `l` (the code's lambdas read
`s[0]`, the position). -/
noncomputable def FPolicy.run : FPolicy → ℝ → IC → Prop
  | .user f, l, s => f l s
  | .distance aspin eps, _, s => KSd aspin s.1 ≥ eps
  | .radius aa reh eps, _, s => KSr aa s.1 ≥ reh + eps

/-- Modelled from the spec: the external `Geode` integrator (class `Geode` of
`fadge.geode`, not under `src/`).  It records the constructor configuration —
start parameter, seed batch, remaining keyword budget `L` and `h`, the three
policies — and the accumulated trajectory record (`lambdas`, `states`),
seeded at affine parameter 0 with the consumed batch. -/
structure GeodeT where
  lambda0 : ℝ
  ic0 : ICBatch
  budget : Option LArg
  h : Option ℝ
  dtype : Option DT
  hupper : HPolicy
  hlower : Option HPolicy
  filter : FPolicy
  lambdas : List ℝ
  states : List ICBatch

/-- Construction of the integrator inside `GRRT.geode` (lines 125-140):
pop `fhupper` (default 0.75) and install the scaled-`KSr` upper step bound
unless `hupper` was given; pop `fhlower` (no default) and install the constant
lower bound only when supplied; pop `eps` (default 1e-2) and choose the
continuation filter by `np.isnan(self.reh)` unless `filter` was given. -/
noncomputable def buildGeode (aspin : ℝ) (reh : Option ℝ) (ic : ICBatch)
    (kw : Kwargs) : GeodeT :=
  let fhupper := kw.fhupper.getD 0.75
  let hup : HPolicy :=
    match kw.hupper with
    | some f => HPolicy.user f
    | none => HPolicy.scaledKSr (aspin * aspin) fhupper
  let hlo : Option HPolicy :=
    match kw.hlower with
    | some f => some (HPolicy.user f)
    | none =>
      match kw.fhlower with
      | some c => some (HPolicy.const c)
      | none => none
  let eps := kw.eps.getD (1 / 100)
  let fil : FPolicy :=
    match kw.filter with
    | some f => FPolicy.user f
    | none =>
      match reh with
      | none => FPolicy.distance aspin eps
      | some r => FPolicy.radius (aspin * aspin) r eps
  ⟨0, ic, kw.L, kw.h, kw.dtype, hup, hlo, fil, [0], [ic]⟩

/-- The camera geometry `self.rij = [r_obs, radians(i_obs), radians(j_obs)]`. -/
structure Cam where
  robs : ℝ
  iobs : ℝ
  jobs : ℝ

/-- The session state of class `GRRT`: spacetime parameters, kwargs, horizon
radius (`none` = the `np.nan` sentinel), the `KSr`/`KSd` closures, the lazily
created integrator `self._geode`, the staged batch `self._ic`, the camera
geometry `self.rij` (absent until `set_cam`), and the external constraint
solvers `self.nullify` / `self.normalize`. -/
structure GRRT where
  aspin : ℝ
  qcharge : ℝ
  dtype : DT
  kwargs : Kwargs
  reh : Option ℝ
  ksr : Vec4 → ℝ
  ksd : Vec4 → ℝ
  geodeI : Option GeodeT
  ic : Option ICBatch
  rij : Option Cam
  nullify : Vec4 → Vec4 → Vec4
  normalize : Vec4 → Vec4 → Vec4

/-- `GRRT.__init__`: store the parameters, set `self.reh = np.nan`,
`self._geode = None`, `self._ic = None`; then, when `aa <= 1`, compute
`reh = 1.0 + np.sqrt(1-aa-qq)` and retain it unless `hp`.  The constraint
solvers `Nullify(metric)` / `Normalize(metric)` are external and passed in as
`nf` / `nm`. -/
noncomputable def initState (nf nm : Vec4 → Vec4 → Vec4) (a q : ℝ) (hp : Bool)
    (dt : DT) (ukw : Kwargs) : GRRT :=
  let aa := a * a
  let reh : Option ℝ :=
    if aa ≤ 1 then (if hp then none else rehFormula a q) else none
  ⟨a, q, dt, ukw, reh, KSr aa, KSd a, none, none, none, nf, nm⟩

/-- The informational messages printed by `GRRT.__init__`. -/
inductive Msg where
  | horizonRadius (v : Option ℝ)
  | penetrating
  | noHorizon

/-- The report produced by `GRRT.__init__`: when `aa <= 1` it prints
`'Radius of outer event horizon:', reh` (plus `'Horizon penetrating'` when
`hp`), otherwise `'There is no event horizon'`.  Note the guard tests only
`aa <= 1`, not `aa + qq <= 1`. -/
noncomputable def initMsgs (a q : ℝ) (hp : Bool) : List Msg :=
  if a * a ≤ 1 then
    Msg.horizonRadius (rehFormula a q) :: (if hp then [Msg.penetrating] else [])
  else
    [Msg.noHorizon]

/-- `GRRT.set_particle(x, v)`: stage `[x, normalize(x, v)]` and merge
`{'L':100, 'h':1, **self.kwargs}` (stored kwargs win). -/
def set_particle (st : GRRT) (x v : Vec4) : GRRT :=
  { st with ic := some (ICBatch.single (x, st.normalize x v)),
            kwargs := Kwargs.merge LhKw st.kwargs }

/-- `GRRT.set_photon(x, v)`: stage `[x, nullify(x, v)]` and merge
`{'L':100, 'h':1, **self.kwargs}`. -/
def set_photon (st : GRRT) (x v : Vec4) : GRRT :=
  { st with ic := some (ICBatch.single (x, st.nullify x v)),
            kwargs := Kwargs.merge LhKw st.kwargs }

/-- `GRRT.set_sphorbit(r)`: obtain `s = sphorbit(aspin, r)` from the external
ray generator (parameter `sph`), stage `[s[0], nullify(s[0], s[1])]`, merge
`{'L':100, 'h':1, **self.kwargs}`. -/
def set_sphorbit (sph : ℝ → ℝ → IC) (st : GRRT) (r : ℝ) : GRRT :=
  let s := sph st.aspin r
  { st with ic := some (ICBatch.single (s.1, st.nullify s.1 s.2)),
            kwargs := Kwargs.merge LhKw st.kwargs }

/-- Degrees to radians, `np.radians`. -/
noncomputable def radians (d : ℝ) : ℝ := d * Real.pi / 180

/-- `GRRT.set_cam(r_obs, i_obs, j_obs)`: store the camera geometry and merge
`{'L': -2*r_obs, 'h': 0.75*r_obs, **self.kwargs}` (stored kwargs win). -/
noncomputable def set_cam (st : GRRT) (robs iobs jobs : ℝ) : GRRT :=
  { st with rij := some ⟨robs, radians iobs, radians jobs⟩,
            kwargs := Kwargs.merge
              ⟨some (LArg.scalar (-2 * robs)), some (0.75 * robs),
               none, none, none, none, none, none, none⟩ st.kwargs }

/-- The per-pixel closure `ic(ab)` of `GRRT.set_pixels`: call the external
camera-ray generator `cam(self.rij, ab)` (parameter `camF`) and nullify the
resulting velocity. -/
def pixelIC (camF : Cam → ℝ × ℝ → IC) (nf : Vec4 → Vec4 → Vec4) (rij : Cam)
    (ab : ℝ × ℝ) : IC :=
  let s := camF rij ab
  (s.1, nf s.1 s.2)

/-- Python exceptions surfaced by the entry point: `KeyError` from a missing
dict key, `AttributeError` from `None.extend` or a missing `self.rij`,
`TypeError` from calling `None`. -/
inductive PyErr where
  | keyError
  | attributeError
  | typeError

/-- `GRRT.set_pixels(a, b)`: map the per-pixel closure independently over the
batch (the `xmap` over all batch axes, modelled from the spec as a per-element
map over a flat index), staging the resulting grid in `self._ic`.  Reading a
missing `self.rij` raises `AttributeError`. -/
def set_pixels (camF : Cam → ℝ × ℝ → IC) (st : GRRT) (n : ℕ)
    (a b : Fin n → ℝ) : Except PyErr GRRT :=
  match st.rij with
  | none => Except.error PyErr.attributeError
  | some rij =>
    Except.ok { st with
      ic := some (ICBatch.grid n (fun i => pixelIC camF st.nullify rij (a i, b i))) }

/-- The lowest-priority entry `{'dtype': self.dtype}` of the kwargs composed
inside `GRRT.geode`. -/
def dtypeKw (dt : DT) : Kwargs :=
  ⟨none, none, none, none, none, none, none, none, some dt⟩

/-- The composed call kwargs of `GRRT.geode`:
`{'dtype': self.dtype, **self.kwargs, **kwargs}` (rightmost wins). -/
def composeKw (st : GRRT) (ckw : Kwargs) : Kwargs :=
  Kwargs.merge (Kwargs.merge (dtypeKw st.dtype) st.kwargs) ckw

/-- `kwargs.pop('L')` after a successful lookup: remove the `L` entry. -/
def popL (kw : Kwargs) : Kwargs :=
  ⟨none, kw.h, kw.fhupper, kw.fhlower, kw.hupper, kw.hlower, kw.eps,
   kw.filter, kw.dtype⟩

/-- What `GRRT.geode` returns: `extend` returns the trajectory record
`(self._geode.lambdas, self._geode.states)`; the evaluate call
`self._geode(L, N=N)` returns the sampled states. -/
inductive GeodeResult where
  | traj (ls : List ℝ) (ss : List ICBatch)
  | samples (ss : List ICBatch)

/-- The first phase of `GRRT.geode` (lines 120-143): when `self._ic` is
staged, compose `{'dtype': self.dtype, **self.kwargs, **kwargs}`, pop `'L'`
if the `L` argument was given (`KeyError` when the composed dict has no
`'L'`), build the integrator from the staged batch and clear `self._ic`;
when nothing is staged the session is left unchanged (the code merely warns
about ignored kwargs). -/
noncomputable def consumeIC (st : GRRT) (Larg : Option LArg) (ckw : Kwargs) :
    Except PyErr GRRT :=
  match st.ic with
  | some ic =>
    let kw0 := composeKw st ckw
    match Larg with
    | some _ =>
      match kw0.L with
      | none => Except.error PyErr.keyError
      | some _ =>
        Except.ok { st with
          geodeI := some (buildGeode st.aspin st.reh ic (popL kw0)),
          ic := none }
    | none =>
      Except.ok { st with
        geodeI := some (buildGeode st.aspin st.reh ic kw0), ic := none }
  | none => Except.ok st

/-- `GRRT.geode(L=None, N=None, **kwargs)`.  The external integrator
operations are abstract parameters: `ext g x N` models the in-place
`self._geode.extend(L, N=N)` (modelled from the spec: extend advances the
stored trajectory), `evalq g xs N` models the non-mutating `self._geode(L,
N=N)` evaluate query.  After the consumption phase, resolve `L` (from
`self.kwargs['L']` when omitted, `KeyError` when absent) and dispatch on
scalar vs sequence; a missing integrator surfaces as `AttributeError`
(`None.extend`) or `TypeError` (`None(...)`). -/
noncomputable def geode (ext : GeodeT → ℝ → Option ℕ → GeodeT)
    (evalq : GeodeT → List ℝ → Option ℕ → List ICBatch)
    (st : GRRT) (Larg : Option LArg) (N : Option ℕ) (ckw : Kwargs) :
    Except PyErr (GeodeResult × GRRT) :=
  match consumeIC st Larg ckw with
  | Except.error e => Except.error e
  | Except.ok st1 =>
    let Lres : Except PyErr LArg :=
      match Larg with
      | some l => Except.ok l
      | none =>
        match st1.kwargs.L with
        | some l => Except.ok l
        | none => Except.error PyErr.keyError
    match Lres with
    | Except.error e => Except.error e
    | Except.ok (LArg.scalar xv) =>
      match st1.geodeI with
      | none => Except.error PyErr.attributeError
      | some g =>
        let g2 := ext g xv N
        Except.ok (GeodeResult.traj g2.lambdas g2.states,
          { st1 with geodeI := some g2 })
    | Except.ok (LArg.seq xs) =>
      match st1.geodeI with
      | none => Except.error PyErr.typeError
      | some g => Except.ok (GeodeResult.samples (evalq g xs N), st1)

/-- A trivial constraint solver used to instantiate the abstract
`Nullify`/`Normalize` parameters in concrete evaluations. -/
def idV : Vec4 → Vec4 → Vec4 := fun _ v => v

/-- The zero 4-vector. -/
def v0 : Vec4 := ⟨0, 0, 0, 0⟩

/-- A trivial instantiation of the integrator's extend operation. -/
def ext0 : GeodeT → ℝ → Option ℕ → GeodeT := fun g _ _ => g

/-- A trivial instantiation of the integrator's evaluate operation. -/
def evalq0 : GeodeT → List ℝ → Option ℕ → List ICBatch := fun _ _ _ => []

/-- Claim C3: after construction, `reh` equals `some (1 + sqrt (1-a²-q²))`
when `a²+q² ≤ 1` and the chart is not horizon penetrating, and is the NaN
sentinel (`none`) when the chart is horizon penetrating or `a²+q² > 1`. -/
theorem horizon_radius_value (nf nm : Vec4 → Vec4 → Vec4) (dt : DT)
    (ukw : Kwargs) (a q : ℝ) (hp : Bool) :
    (a * a + q * q ≤ 1 → hp = false →
      (initState nf nm a q hp dt ukw).reh =
        some (1 + Real.sqrt (1 - a * a - q * q))) ∧
    (hp = true → (initState nf nm a q hp dt ukw).reh = none) ∧
    (a * a + q * q > 1 → (initState nf nm a q hp dt ukw).reh = none) := by
  have hq : 0 ≤ q * q := mul_self_nonneg q
  have ha : 0 ≤ a * a := mul_self_nonneg a
  refine ⟨?_, ?_, ?_⟩
  · intro h1 h2
    subst h2
    have haa : a * a ≤ 1 := by linarith
    have hs : ¬(1 - a * a - q * q < 0) := by linarith
    simp [initState, if_pos haa, rehFormula, fsqrt, if_neg hs]
    linarith
  · intro h2
    subst h2
    simp [initState]
  · intro h1
    rcases le_or_lt (a * a) 1 with haa | haa
    · have hs : 1 - a * a - q * q < 0 := by linarith
      cases hp with
      | false =>
        simp [initState, if_pos haa, rehFormula, fsqrt, if_pos hs]
        linarith
      | true => simp [initState, if_pos haa]
    · simp [initState, if_neg (not_le.mpr haa)]

/-- Witness for claim C3 at concrete parameters. -/
theorem horizon_radius_value_wit :
    (initState idV idV 0 0 false DT.f32 mtKw).reh =
      some (1 + Real.sqrt (1 - 0 * 0 - 0 * 0)) ∧
    (initState idV idV 1 1 false DT.f32 mtKw).reh = none :=
  ⟨(horizon_radius_value idV idV DT.f32 mtKw 0 0 false).1 (by norm_num) rfl,
   (horizon_radius_value idV idV DT.f32 mtKw 1 1 false).2.2 (by norm_num)⟩

/-- Claim C2, evaluated at the failing input `aspin = 0, qcharge = 2`
(`spin²+charge² = 4 > 1`): because the guard in `GRRT.__init__` tests only
`aa <= 1` and ignores the charge, the constructor emits the
"radius of outer event horizon" report with a NaN payload instead of the
"no horizon" report the claim requires. -/
theorem horizon_report_bug :
    initMsgs 0 2 false = [Msg.horizonRadius none] ∧
    Msg.noHorizon ∉ initMsgs 0 2 false := by
  have h1 : ((0 : ℝ) * 0 ≤ 1) := by norm_num
  have h2 : ((1 : ℝ) - 0 * 0 - 2 * 2 < 0) := by norm_num
  constructor
  · simp [initMsgs, if_pos h1, rehFormula, fsqrt, if_pos h2]
    norm_num
  · simp [initMsgs, if_pos h1, rehFormula, fsqrt, if_pos h2]

/-- Claim C5: on a freshly constructed session (no `set_*` call, no
integrator), every invocation of the integration entry point raises: either
`KeyError` (no stored `'L'`), `AttributeError` (`None.extend`) or `TypeError`
(calling `None`); it never returns successfully. -/
theorem geode_fresh_raises (ext : GeodeT → ℝ → Option ℕ → GeodeT)
    (evalq : GeodeT → List ℝ → Option ℕ → List ICBatch)
    (nf nm : Vec4 → Vec4 → Vec4) (a q : ℝ) (hp : Bool) (dt : DT)
    (ukw : Kwargs) (Larg : Option LArg) (N : Option ℕ) (ckw : Kwargs) :
    ∃ e, geode ext evalq (initState nf nm a q hp dt ukw) Larg N ckw =
      Except.error e := by
  cases Larg with
  | some l =>
    cases l with
    | scalar xv => exact ⟨PyErr.attributeError, rfl⟩
    | seq xs => exact ⟨PyErr.typeError, rfl⟩
  | none =>
    cases hL : ukw.L with
    | none => exact ⟨PyErr.keyError, by simp [geode, consumeIC, initState, hL]⟩
    | some l =>
      cases l with
      | scalar xv => exact ⟨PyErr.attributeError, by simp [geode, consumeIC, initState, hL]⟩
      | seq xs => exact ⟨PyErr.typeError, by simp [geode, consumeIC, initState, hL]⟩

/-- A successful consumption phase always leaves `self._ic` cleared: either
the staged batch was just consumed, or nothing was staged to begin with. -/
theorem consumeIC_ok_ic (st : GRRT) (Larg : Option LArg) (ckw : Kwargs)
    (st1 : GRRT) (h : consumeIC st Larg ckw = Except.ok st1) :
    st1.ic = none := by
  rcases hic : st.ic with _ | ic
  · have h2 : st = st1 := by simpa [consumeIC, hic] using h
    subst h2
    exact hic
  · rcases Larg with _ | l
    · have h2 : { st with
          geodeI := some (buildGeode st.aspin st.reh ic (composeKw st ckw)),
          ic := none } = st1 := by
        simpa [consumeIC, hic] using h
      subst h2
      rfl
    · rcases hL : (composeKw st ckw).L with _ | l2
      · exfalso
        simp [consumeIC, hic, hL] at h
      · have h2 : { st with
            geodeI := some (buildGeode st.aspin st.reh ic (popL (composeKw st ckw))),
            ic := none } = st1 := by
          simpa [consumeIC, hic, hL] using h
        subst h2
        rfl

/-- Claim C9 (amended): immediately after construction both `self._ic` and
`self._geode` are empty; after every successful integration call `self._ic`
has been cleared and `self._geode` is present. -/
theorem geode_post_state :
    (∀ nf nm a q hp dt ukw,
      (initState nf nm a q hp dt ukw).ic = none ∧
      (initState nf nm a q hp dt ukw).geodeI = none) ∧
    (∀ ext evalq (st : GRRT) Larg N ckw res st',
      geode ext evalq st Larg N ckw = Except.ok (res, st') →
      st'.ic = none ∧ ∃ g, st'.geodeI = some g) := by
  constructor
  · intro nf nm a q hp dt ukw
    exact ⟨rfl, rfl⟩
  · intro ext evalq st Larg N ckw res st' h
    simp only [geode] at h
    cases hc : consumeIC st Larg ckw with
    | error e => rw [hc] at h; exact absurd h (by simp)
    | ok st1 =>
      rw [hc] at h
      have hic := consumeIC_ok_ic st Larg ckw st1 hc
      repeat' split at h
      all_goals
        first
        | exact Except.noConfusion h
        | (injection h with h2
           rw [Prod.mk.injEq] at h2
           obtain ⟨h3, h4⟩ := h2
           subst h4
           constructor
           · simp_all
           · simp_all)

/-- Concrete trace used for claim C9: construct, stage a particle, integrate
once with scalar `L = 1`. -/
noncomputable def stA : GRRT :=
  set_particle (initState idV idV 0 0 false DT.f32 mtKw) v0 v0

/-- The integrator built when the staged batch of `stA` is consumed. -/
noncomputable def gB : GeodeT :=
  buildGeode stA.aspin stA.reh (ICBatch.single (v0, v0))
    (popL (composeKw stA mtKw))

/-- The session state after the successful integration call on `stA`. -/
noncomputable def st2c : GRRT := { stA with geodeI := some gB, ic := none }

/-- Witness for claim C9 on the concrete trace. -/
theorem geode_post_state_wit : st2c.ic = none ∧ ∃ g, st2c.geodeI = some g :=
  geode_post_state.2 ext0 evalq0 stA (some (LArg.scalar 1)) none mtKw
    (GeodeResult.traj gB.lambdas gB.states) st2c rfl

/-- Projection of a successful entry-point call onto the updated session. -/
def okPart : Except PyErr (GeodeResult × GRRT) → Option GRRT
  | Except.ok p => some p.2
  | Except.error _ => none

/-- Counterexample to claim C9 as stated: after the first successful
integration call, a further `set_particle` re-stages initial conditions while
the integrator persists, so both `self._ic` and `self._geode` are present and
"exactly one of the two holds from the first successful integration call
onward" fails. -/
theorem both_present_after_restage :
    (okPart (geode ext0 evalq0 stA (some (LArg.scalar 1)) none mtKw)).map
      (fun s2 => ((set_particle s2 v0 v0).ic.isSome &&
                  (set_particle s2 v0 v0).geodeI.isSome)) = some true := rfl

/-- A session state with empty kwargs, no staged batch and no integrator. -/
noncomputable def stFree : GRRT :=
  ⟨0, 0, DT.f32, mtKw, none, KSr 0, KSd 0, none, none, none, idV, idV⟩

/-- Kwargs with `L` and `h` already present. -/
def kwL7 : Kwargs :=
  ⟨some (LArg.scalar 7), some 9, none, none, none, none, none, none, none⟩

/-- A session state whose kwargs already hold `L` and `h`. -/
noncomputable def stPre : GRRT :=
  ⟨0, 0, DT.f32, kwL7, none, KSr 0, KSd 0, none, none, none, idV, idV⟩

/-- Claim C10: `set_cam` merges its camera defaults below the stored kwargs,
so keys `L` and `h` already present — whether supplied at construction or
installed by an earlier `set_*` call — are left unchanged; the defaults
`L = -2*r_obs` and `h = 0.75*r_obs` take effect only when the respective key
is absent at the time of the call. -/
theorem set_cam_preserves (st : GRRT) (robs iobs jobs : ℝ) :
    (∀ l, st.kwargs.L = some l →
      (set_cam st robs iobs jobs).kwargs.L = some l) ∧
    (∀ hv, st.kwargs.h = some hv →
      (set_cam st robs iobs jobs).kwargs.h = some hv) ∧
    (st.kwargs.L = none →
      (set_cam st robs iobs jobs).kwargs.L = some (LArg.scalar (-2 * robs))) ∧
    (st.kwargs.h = none →
      (set_cam st robs iobs jobs).kwargs.h = some (0.75 * robs)) := by
  refine ⟨fun l hl => ?_, fun hv hh => ?_, fun hl => ?_, fun hh => ?_⟩ <;>
    simp [set_cam, Kwargs.merge, opm, *]

/-- Witness for claim C10: a preset `L` survives `set_cam`; an absent `L`
receives the camera default. -/
theorem set_cam_preserves_wit :
    (set_cam stPre 1 0 0).kwargs.L = some (LArg.scalar 7) ∧
    (set_cam stFree 1 0 0).kwargs.L = some (LArg.scalar (-2 * 1)) :=
  ⟨(set_cam_preserves stPre 1 0 0).1 (LArg.scalar 7) rfl,
   (set_cam_preserves stFree 1 0 0).2.2.1 rfl⟩

/-- The contract of the `{'L':100, 'h':1, **self.kwargs}` merge: defaults
land only on absent keys, present keys survive, all other keys unchanged. -/
def mergedLh (k k2 : Kwargs) : Prop :=
  (k.L = none → k2.L = some (LArg.scalar 100)) ∧
  (∀ l, k.L = some l → k2.L = some l) ∧
  (k.h = none → k2.h = some 1) ∧
  (∀ hv, k.h = some hv → k2.h = some hv) ∧
  k2.fhupper = k.fhupper ∧ k2.fhlower = k.fhlower ∧ k2.hupper = k.hupper ∧
  k2.hlower = k.hlower ∧ k2.eps = k.eps ∧ k2.filter = k.filter ∧
  k2.dtype = k.dtype

/-- Merging an empty entry on the left is the identity. -/
theorem opm_none_left {α : Type} (b : Option α) : opm none b = b := by
  cases b <;> rfl

/-- A present right entry wins the merge. -/
theorem opm_some {α : Type} (a : Option α) (x : α) : opm a (some x) = some x :=
  rfl

/-- An absent right entry keeps the left one. -/
theorem opm_none_right {α : Type} (a : Option α) : opm a none = a := rfl

/-- Claim C8: each of `set_particle`, `set_photon`, `set_sphorbit` replaces
the staged batch with the newly built (position, constrained velocity) pair
and merges `{'L':100, 'h':1}` into the stored kwargs without overwriting any
key already present. -/
theorem set_ic_merge (st : GRRT) (x v : Vec4) (r : ℝ) (sph : ℝ → ℝ → IC) :
    ((set_particle st x v).ic = some (ICBatch.single (x, st.normalize x v)) ∧
      mergedLh st.kwargs (set_particle st x v).kwargs) ∧
    ((set_photon st x v).ic = some (ICBatch.single (x, st.nullify x v)) ∧
      mergedLh st.kwargs (set_photon st x v).kwargs) ∧
    ((set_sphorbit sph st r).ic =
        some (ICBatch.single ((sph st.aspin r).1,
          st.nullify (sph st.aspin r).1 (sph st.aspin r).2)) ∧
      mergedLh st.kwargs (set_sphorbit sph st r).kwargs) := by
  refine ⟨⟨rfl, ?_⟩, ⟨rfl, ?_⟩, ⟨rfl, ?_⟩⟩ <;>
    refine ⟨fun hL => ?_, fun l hL => ?_, fun hh => ?_, fun hv hh => ?_,
      ?_, ?_, ?_, ?_, ?_, ?_, ?_⟩ <;>
    simp [set_particle, set_photon, set_sphorbit, Kwargs.merge, LhKw,
      opm_some, opm_none_right, opm_none_left, *]

/-- Witness for claim C8: on empty kwargs the default `L = 100` is installed;
a preset `L` is not overwritten. -/
theorem set_ic_merge_wit :
    (set_particle stFree v0 v0).kwargs.L = some (LArg.scalar 100) ∧
    (set_particle stPre v0 v0).kwargs.L = some (LArg.scalar 7) :=
  ⟨((set_ic_merge stFree v0 v0 0 (fun _ _ => (v0, v0))).1.2).1 rfl,
   ((set_ic_merge stPre v0 v0 0 (fun _ _ => (v0, v0))).1.2).2.1
     (LArg.scalar 7) rfl⟩

/-- Claim C6: `set_pixels` stages a batch of exactly the input shape whose
element at index `i` is the per-pixel map of `(a i, b i)` alone (plus the
stored camera geometry); permuting the input grid permutes the staged output
identically, and no data flows between pixels. -/
theorem set_pixels_pointwise (camF : Cam → ℝ × ℝ → IC) (st : GRRT) (n : ℕ)
    (a b : Fin n → ℝ) (rij : Cam) (hr : st.rij = some rij) :
    (set_pixels camF st n a b = Except.ok { st with
        ic := some (ICBatch.grid n
          (fun i => pixelIC camF st.nullify rij (a i, b i))) }) ∧
    (∀ σ : Equiv.Perm (Fin n),
      (fun i => pixelIC camF st.nullify rij ((a ∘ σ) i, (b ∘ σ) i)) =
        (fun i => pixelIC camF st.nullify rij (a i, b i)) ∘ σ) ∧
    (∀ (a2 b2 : Fin n → ℝ) (i : Fin n), a i = a2 i → b i = b2 i →
      pixelIC camF st.nullify rij (a i, b i) =
        pixelIC camF st.nullify rij (a2 i, b2 i)) := by
  refine ⟨?_, fun σ => rfl, fun a2 b2 i ha hb => by rw [ha, hb]⟩
  simp [set_pixels, hr]

/-- A session state with camera geometry already stored. -/
noncomputable def stCam : GRRT :=
  ⟨0, 0, DT.f32, mtKw, none, KSr 0, KSd 0, none, none, some ⟨1, 0, 0⟩,
   idV, idV⟩

/-- A trivial camera-ray generator for concrete evaluations. -/
def camF0 : Cam → ℝ × ℝ → IC := fun _ _ => (v0, v0)

/-- Witness for claim C6 on a concrete 2-pixel grid. -/
theorem set_pixels_pointwise_wit :
    set_pixels camF0 stCam 2 (fun _ => 0) (fun _ => 0) = Except.ok { stCam with
      ic := some (ICBatch.grid 2 (fun i => pixelIC camF0 stCam.nullify
        ⟨1, 0, 0⟩ ((fun _ => (0 : ℝ)) i, (fun _ => (0 : ℝ)) i))) } :=
  (set_pixels_pointwise camF0 stCam 2 (fun _ => 0) (fun _ => 0)
    ⟨1, 0, 0⟩ rfl).1

/-- Claim C4: with a staged-free session holding an integrator, a scalar `L`
argument (or an omitted one resolved from the stored scalar default) invokes
the in-place extend — the session keeps the mutated integrator and the call
returns its accumulated `(lambdas, states)` record — while a sequence `L`
invokes the evaluate query, returning the states at the requested parameters
in order and leaving the stored integrator untouched. -/
theorem geode_dispatch (ext : GeodeT → ℝ → Option ℕ → GeodeT)
    (evalq : GeodeT → List ℝ → Option ℕ → List ICBatch)
    (st : GRRT) (g : GeodeT) (N : Option ℕ) (ckw : Kwargs)
    (hic : st.ic = none) (hg : st.geodeI = some g) :
    (∀ xv, geode ext evalq st (some (LArg.scalar xv)) N ckw =
      Except.ok (GeodeResult.traj (ext g xv N).lambdas (ext g xv N).states,
        { st with geodeI := some (ext g xv N) })) ∧
    (∀ xv, st.kwargs.L = some (LArg.scalar xv) →
      geode ext evalq st none N ckw =
      Except.ok (GeodeResult.traj (ext g xv N).lambdas (ext g xv N).states,
        { st with geodeI := some (ext g xv N) })) ∧
    (∀ xs, geode ext evalq st (some (LArg.seq xs)) N ckw =
      Except.ok (GeodeResult.samples (evalq g xs N), st)) ∧
    (∀ xs, st.kwargs.L = some (LArg.seq xs) →
      geode ext evalq st none N ckw =
      Except.ok (GeodeResult.samples (evalq g xs N), st)) := by
  refine ⟨fun xv => ?_, fun xv hL => ?_, fun xs => ?_, fun xs hL => ?_⟩ <;>
    simp [geode, consumeIC, hic, hg, *]

/-- A concrete integrator value for witnesses. -/
noncomputable def g0 : GeodeT :=
  ⟨0, ICBatch.single (v0, v0), none, none, none, HPolicy.const 1, none,
   FPolicy.user (fun _ _ => True), [0], [ICBatch.single (v0, v0)]⟩

/-- A session state holding an integrator and no staged batch. -/
noncomputable def stInt : GRRT :=
  ⟨0, 0, DT.f32, mtKw, none, KSr 0, KSd 0, some g0, none, none, idV, idV⟩

/-- Witness for claim C4: a scalar call on a concrete session returns the
trajectory record of the extended integrator. -/
theorem geode_dispatch_wit :
    geode ext0 evalq0 stInt (some (LArg.scalar 1)) none mtKw =
      Except.ok (GeodeResult.traj g0.lambdas g0.states,
        { stInt with geodeI := some g0 }) :=
  (geode_dispatch ext0 evalq0 stInt g0 none mtKw rfl rfl).1 1

/-- For naked-singularity parameters (`a² + q² > 1`) the stored horizon
radius is the NaN sentinel: either `aa > 1` skips the computation, or
`np.sqrt` of the negative argument already yields NaN. -/
theorem reh_naked_none (nf nm : Vec4 → Vec4 → Vec4) (a q : ℝ) (hp : Bool)
    (dt : DT) (ukw : Kwargs) (h1 : a * a + q * q > 1) :
    (initState nf nm a q hp dt ukw).reh = none := by
  rcases le_or_lt (a * a) 1 with haa | haa
  · have hs : 1 - a * a - q * q < 0 := by linarith
    cases hp with
    | false =>
      simp [initState, if_pos haa, rehFormula, fsqrt, if_pos hs]
      linarith
    | true => simp [initState, if_pos haa]
  · simp [initState, if_neg (not_le.mpr haa)]

/-- Claim C1: when the entry point consumes a staged batch and the caller
supplied no `filter` override, the integrator is built with the
distance-based filter (`KSd(pos) ≥ eps`) exactly when `self.reh` is the NaN
sentinel, and with the radius-based filter (`KSr(pos) ≥ reh + eps`)
otherwise, `eps` defaulting to 1e-2; for `spin² + charge² > 1` the session's
`reh` is NaN (and the `set_*` builders preserve it), so the installed filter
is distance-based, never radius-based. -/
theorem grrt_filter_choice :
    (∀ (st : GRRT) (ic : ICBatch) (ckw : Kwargs)
        (ext : GeodeT → ℝ → Option ℕ → GeodeT)
        (evalq : GeodeT → List ℝ → Option ℕ → List ICBatch)
        (xs : List ℝ) (N : Option ℕ) (l0 : LArg),
      st.ic = some ic → st.kwargs.filter = none → ckw.filter = none →
      (composeKw st ckw).L = some l0 →
      geode ext evalq st (some (LArg.seq xs)) N ckw =
        Except.ok (GeodeResult.samples
            (evalq (buildGeode st.aspin st.reh ic (popL (composeKw st ckw))) xs N),
          { st with
            geodeI := some (buildGeode st.aspin st.reh ic (popL (composeKw st ckw))),
            ic := none }) ∧
      (buildGeode st.aspin st.reh ic (popL (composeKw st ckw))).filter =
        (match st.reh with
         | none =>
           FPolicy.distance st.aspin ((composeKw st ckw).eps.getD (1 / 100))
         | some rv =>
           FPolicy.radius (st.aspin * st.aspin) rv
             ((composeKw st ckw).eps.getD (1 / 100)))) ∧
    (∀ nf nm a q hp dt ukw, a * a + q * q > 1 →
      (initState nf nm a q hp dt ukw).reh = none) ∧
    (∀ (st : GRRT) (x v : Vec4) (r : ℝ) (sph : ℝ → ℝ → IC),
      (set_particle st x v).reh = st.reh ∧ (set_photon st x v).reh = st.reh ∧
      (set_sphorbit sph st r).reh = st.reh) ∧
    (∀ a2 e aa rv e2, FPolicy.distance a2 e ≠ FPolicy.radius aa rv e2) ∧
    (∀ a2 e l s, FPolicy.run (FPolicy.distance a2 e) l s ↔ KSd a2 s.1 ≥ e) ∧
    (∀ aa rv e l s, FPolicy.run (FPolicy.radius aa rv e) l s ↔
      KSr aa s.1 ≥ rv + e) := by
  refine ⟨?_, ?_, ?_, ?_, ?_, ?_⟩
  · intro st ic ckw ext evalq xs N l0 hic hf1 hf2 hL0
    have hfc : (composeKw st ckw).filter = none := by
      simp [composeKw, Kwargs.merge, dtypeKw, hf1, hf2, opm_none_left]
    constructor
    · simp [geode, consumeIC, hic, hL0]
    · cases hreh : st.reh with
      | none => simp [buildGeode, popL, hfc, hreh]
      | some rv => simp [buildGeode, popL, hfc, hreh]
  · intro nf nm a q hp dt ukw h1
    exact reh_naked_none nf nm a q hp dt ukw h1
  · intro st x v r sph
    exact ⟨rfl, rfl, rfl⟩
  · intro a2 e aa rv e2 h
    exact FPolicy.noConfusion h
  · intro a2 e l s
    exact Iff.rfl
  · intro aa rv e l s
    exact Iff.rfl

/-- The staged session used to witness claim C1: spin 0, charge 2 (a naked
singularity), a photon staged. -/
noncomputable def stP : GRRT :=
  set_photon (initState idV idV 0 2 false DT.f32 mtKw) v0 v0

/-- Witness for claim C1 on `stP`: the installed filter is the distance-based
one with the default `eps`. -/
theorem grrt_filter_choice_wit :
    (buildGeode stP.aspin stP.reh (ICBatch.single (v0, v0))
        (popL (composeKw stP mtKw))).filter = FPolicy.distance 0 (1 / 100) := by
  have h := (grrt_filter_choice.1 stP (ICBatch.single (v0, v0)) mtKw ext0
    evalq0 [] none (LArg.scalar 100) rfl rfl rfl rfl).2
  have hreh : stP.reh = none :=
    reh_naked_none idV idV 0 2 false DT.f32 mtKw (by norm_num)
  rw [hreh] at h ⊢
  exact h

/-- Counterexample to claim C7 as stated: at `spin = 1, charge = 0` the
session reports horizon radius `1 + sqrt(1-1-0) = 1`, but the session's
`KSr` closure evaluated at the equatorial point with zero transverse offset
whose spatial radius is that reported value returns `0`, not the reported
radius — in Kerr-Schild Cartesian coordinates the `r = reh` surface meets
the equator at cylindrical radius `sqrt(reh² + a²)`, not `reh`. -/
theorem ksr_horizon_cex :
    (initState idV idV 1 0 false DT.f32 mtKw).reh =
      some (1 + Real.sqrt (1 - 1 * 1 - 0 * 0)) ∧
    (initState idV idV 1 0 false DT.f32 mtKw).ksr
        ⟨0, 1 + Real.sqrt (1 - 1 * 1 - 0 * 0), 0, 0⟩ = 0 ∧
    (0 : ℝ) ≠ 1 + Real.sqrt (1 - 1 * 1 - 0 * 0) := by
  have h0 : (1 : ℝ) - 1 * 1 - 0 * 0 = 0 := by norm_num
  have hs : Real.sqrt (1 - 1 * 1 - 0 * 0) = 0 := by rw [h0, Real.sqrt_zero]
  refine ⟨?_, ?_, ?_⟩
  · have h1 : ((1 : ℝ) * 1 ≤ 1) := by norm_num
    have h2 : ¬((1 : ℝ) - 1 * 1 - 0 * 0 < 0) := by norm_num
    simp [initState, if_pos h1, rehFormula, fsqrt, if_neg h2]
  · show KSr (1 * 1) ⟨0, 1 + Real.sqrt (1 - 1 * 1 - 0 * 0), 0, 0⟩ = 0
    rw [hs]
    norm_num [KSr, Real.sqrt_zero]
  · rw [hs]
    norm_num

/-- Claim C7 (amended): for `a² + q² ≤ 1`, the session's `KSr` closure
returns the reported horizon radius `reh = 1 + sqrt(1-a²-q²)` exactly at the
equatorial points (`x3 = 0`) whose squared cylindrical radius is
`reh² + a²` — the equatorial locus of the Kerr-Schild radius `reh`. -/
theorem ksr_horizon_locus (nf nm : Vec4 → Vec4 → Vec4) (dt : DT)
    (ukw : Kwargs) (a q : ℝ) (h1 : a * a + q * q ≤ 1) (t x1 x2 : ℝ)
    (hx : x1 * x1 + x2 * x2 =
      (1 + Real.sqrt (1 - a * a - q * q)) *
        (1 + Real.sqrt (1 - a * a - q * q)) + a * a) :
    (initState nf nm a q false dt ukw).ksr ⟨t, x1, x2, 0⟩ =
      1 + Real.sqrt (1 - a * a - q * q) := by
  have hre : (0 : ℝ) ≤ 1 + Real.sqrt (1 - a * a - q * q) := by positivity
  set re := 1 + Real.sqrt (1 - a * a - q * q) with hredef
  show Real.sqrt (Real.sqrt
      ((0.5 * (x1 * x1 + x2 * x2 + 0 * 0 - a * a)) *
        (0.5 * (x1 * x1 + x2 * x2 + 0 * 0 - a * a)) + a * a * (0 * 0)) +
      0.5 * (x1 * x1 + x2 * x2 + 0 * 0 - a * a)) = re
  have hkk : (0.5 : ℝ) * (x1 * x1 + x2 * x2 + 0 * 0 - a * a) =
      0.5 * (re * re) := by
    rw [hx]; ring
  rw [hkk]
  have h05 : (0 : ℝ) ≤ 0.5 * (re * re) := by positivity
  rw [show (0.5 : ℝ) * (re * re) * (0.5 * (re * re)) + a * a * (0 * 0) =
    (0.5 * (re * re)) * (0.5 * (re * re)) from by ring]
  rw [Real.sqrt_mul_self h05]
  rw [show (0.5 : ℝ) * (re * re) + 0.5 * (re * re) = re * re from by ring]
  exact Real.sqrt_mul_self hre

/-- Witness for claim C7 (amended) at `a = q = 0`: `reh = 2` and `KSr` at the
equatorial point with cylindrical radius 2 returns 2. -/
theorem ksr_horizon_locus_wit :
    (initState idV idV 0 0 false DT.f32 mtKw).ksr ⟨0, 2, 0, 0⟩ =
      1 + Real.sqrt (1 - 0 * 0 - 0 * 0) :=
  ksr_horizon_locus idV idV DT.f32 mtKw 0 0 (by norm_num) 0 2 0
    (by norm_num [Real.sqrt_one])

end Fadge
